import Mathlib

/-!
Shallow embedding of the KisaanConnect filesystem-watcher core
(the chokidar-style `FSWatcher` in `src/unnamed/part_007`, the
`fs.watchFile` polling listener in `src/chokidar/lib/fsevents-handler.js`,
and the brace-expansion range limit of `src/braces/lib/expand.js`,
`src/unnamed/part_006` and `src/fill-range/index.js`), together with
proofs settling the frozen claims about it.

Modelling conventions:
* JavaScript `Map` objects become association lists with first-key-wins
  lookup (`lookupA` / `insertA` / `eraseA`).
* Wall-clock instants (`new Date()`, `Number(new Date())`) become `Int`
  millisecond values passed explicitly to the state-transition functions.
* The watcher is modelled in the non-Windows, no-`cwd` configuration, in
  which the `isWindows` path rewrite and the `cwd`-relative rewrite at the
  top of `FSWatcher._emit` are both the identity.
* `setTimeout` calls become explicit `Timer` values returned by the
  transition so that a theorem can talk about which timers a step arms.
-/

set_option autoImplicit false

namespace KisaanWatch

/-! ## Association-list maps (model of JavaScript `Map`) -/

def lookupA {α β : Type} [DecidableEq α] : List (α × β) → α → Option β
  | [], _ => none
  | (k, v) :: rest, a => if k = a then some v else lookupA rest a

def eraseA {α β : Type} [DecidableEq α] : List (α × β) → α → List (α × β)
  | [], _ => []
  | (k, v) :: rest, a => if k = a then eraseA rest a else (k, v) :: eraseA rest a

def insertA {α β : Type} [DecidableEq α] (m : List (α × β)) (a : α) (b : β) :
    List (α × β) :=
  (a, b) :: eraseA m a

/-! ## Events, channels, stats -/

/-- The semantic event kinds of the watcher (`EV_*` in `lib/constants`). -/
inductive Ev : Type
  | add | change | unlink | addDir | unlinkDir | ready | raw | error
  deriving DecidableEq, Repr

/-- An emission channel: the event's own named channel, or the `all`
channel (which receives the event name as the first payload argument). -/
inductive Chan : Type
  | named (e : Ev)
  | all (e : Ev)
  deriving DecidableEq, Repr

/-- The slice of an `fs.Stats` record the watcher logic inspects. -/
structure Stats where
  size : Nat
  mtimeMs : Nat
  deriving DecidableEq, Repr

/-- One delivered emission: channel plus `(path, stats?)` payload. -/
structure Output where
  chan : Chan
  path : String
  stats : Option Stats
  deriving DecidableEq, Repr

/-- A timer armed by a transition (`setTimeout` in the source). -/
inductive Timer : Type
  | atomicFlush (delay : Int)
  | awfPoll (path : String) (interval : Int)
  deriving DecidableEq, Repr

/-! ## Watcher state

Fields mirror the internal trackers set up in the `FSWatcher`
constructor (`src/unnamed/part_007`, lines 262-349). -/

/-- `awaitWriteFinish` sub-options after constructor defaulting. -/
structure AwfOpts where
  stabilityThreshold : Int
  pollInterval : Int
  deriving DecidableEq, Repr

/-- The options consulted by the modelled code paths. -/
structure Options where
  atomic : Bool
  /-- The flush delay: `typeof opts.atomic === 'number' ? opts.atomic : 100`. -/
  atomicDelay : Int
  awaitWriteFinish : Option AwfOpts
  alwaysStat : Bool
  ignorePermissionErrors : Bool
  deriving DecidableEq, Repr

/-- A pending-write slot (`this._pendingWrites` values): only the
`lastChange` instant is mutable state; `cancelWait` is modelled by
erasing the slot. -/
structure PendingWrite where
  lastChange : Int
  deriving DecidableEq, Repr

/-- A throttle slot (`_throttle`'s `thr` object).  `releaseAt` records
the deadline of the `setTimeout(clear, timeout)` release timer. -/
structure ThrottleSlot where
  count : Nat
  releaseAt : Int
  deriving DecidableEq, Repr

/-- The mutable state of one `FSWatcher`. -/
structure WatcherState where
  closed : Bool
  readyEmitted : Bool
  opts : Options
  /-- `Map<path, DirEntry>` keyed by directory, holding child basenames. -/
  watched : List (String × List String)
  /-- `Map<path, Array<closer>>`; only the keys matter to the claims. -/
  closers : List String
  ignoredPaths : List String
  /-- Outer map `Map<throttleType, Map<path, thr>>` flattened to pairs. -/
  throttled : List ((String × String) × ThrottleSlot)
  symlinkPaths : List (String × String)
  /-- `this._streams` as a count of live readdirp streams. -/
  streams : Nat
  /-- Count of listeners attached via `on`; `removeAllListeners` zeroes it. -/
  listeners : Nat
  readyCount : Nat
  pendingUnlinks : List (String × (Ev × String × Option Stats))
  pendingWrites : List (String × PendingWrite)
  deriving DecidableEq, Repr

/-! ## `FSWatcher.emitWithAll` (part_007, lines 474-477) -/

/-- `emitWithAll(event, args)`: emit on the named channel, and mirror
onto `all` unless the event is `error`. -/
def emitWithAll (event : Ev) (path : String) (stats : Option Stats) :
    List Output :=
  { chan := Chan.named event, path := path, stats := stats } ::
    (if event ≠ Ev.error then
      [{ chan := Chan.all event, path := path, stats := stats }]
    else [])

/-! ## `FSWatcher._handleError` (part_007, lines 560-568) -/

/-- The error-code slice of a JS error object (`error.code`, possibly
absent). The handler is only reached with a truthy `error`. -/
structure JsError where
  code : Option String
  deriving DecidableEq, Repr

/-- Whether `_handleError` emits an `error` event for a (truthy) error:
`error && code !== 'ENOENT' && code !== 'ENOTDIR' &&
 (!opts.ignorePermissionErrors || (code !== 'EPERM' && code !== 'EACCES'))`. -/
def handleErrorEmits (ignorePermissionErrors : Bool) (error : JsError) : Bool :=
  error.code ≠ some "ENOENT" && error.code ≠ some "ENOTDIR" &&
    (!ignorePermissionErrors || (error.code ≠ some "EPERM" && error.code ≠ some "EACCES"))

/-! ## `FSWatcher._throttle` (part_007, lines 570-593) -/

/-- `_throttle(actionType, path, timeout)` at wall-clock instant `now`.
Returns the updated state and `true` for a fresh slot (the source
returns the slot object, which is truthy) or `false` when suppressed. -/
def throttle (st : WatcherState) (actionType path : String) (timeout now : Int) :
    WatcherState × Bool :=
  match lookupA st.throttled (actionType, path) with
  | some existing =>
      let slot : ThrottleSlot := { existing with count := existing.count + 1 }
      ({ st with throttled := insertA st.throttled (actionType, path) slot }, false)
  | none =>
      let slot : ThrottleSlot := { count := 0, releaseAt := now + timeout }
      ({ st with throttled := insertA st.throttled (actionType, path) slot }, true)

/-! ## `FSWatcher._awaitWriteFinish` (part_007, lines 599-644) -/

/-- Slot creation (`if (!this._pendingWrites.has(path))` at 633-643):
if absent, record `lastChange := now` and arm the first poll timer. -/
def awaitWriteFinishEnter (st : WatcherState) (path : String) (now pollInterval : Int) :
    WatcherState × List Timer :=
  match lookupA st.pendingWrites path with
  | some _ => (st, [])
  | none =>
      ({ st with pendingWrites := insertA st.pendingWrites path { lastChange := now } },
        [Timer.awfPoll path pollInterval])

/-- One execution of `poll`'s stat callback (lines 609-631) on a slot that
is still present, with a successful `stat` result `cur`.
`lastChange` is the slot's stored instant, `prev` the `prevStat` carried
by the previous `setTimeout` (absent on the first poll).
`Sum.inl (lastChange', prev')` means the poll re-armed with updated slot
data; `Sum.inr cur` means the slot was deleted and the suppressed event
emitted carrying the final stat `cur`. -/
def awfPollStep (threshold lastChange : Int) (prev : Option Stats) (now : Int)
    (cur : Stats) : Sum (Int × Stats) Stats :=
  let lastChange' :=
    match prev with
    | some p => if cur.size ≠ p.size then now else lastChange
    | none => lastChange
  if threshold ≤ now - lastChange' then Sum.inr cur
  else Sum.inl (lastChange', cur)

/-! ## `FSWatcher._emit` (part_007, lines 483-558)

One synchronous run of the emission pipeline for a candidate event, in
the non-Windows, no-`cwd` configuration (so the path rewrites at lines
487-488 are the identity).  The `alwaysStat` branch `await`s a `stat`;
its result is supplied as the oracle `statOf`. -/

structure EmitResult where
  state : WatcherState
  outs : List Output
  timers : List Timer
  deriving Repr

def emitRun (st : WatcherState) (now : Int) (event : Ev) (path : String)
    (stats : Option Stats) (statOf : String → Option Stats) : EmitResult :=
  -- line 484: `if (this.closed) return;`
  if st.closed then { state := st, outs := [], timers := [] }
  -- lines 497-501: a live pending-write slot swallows the event and
  -- just refreshes its `lastChange`.
  else if st.opts.awaitWriteFinish.isSome &&
      (lookupA st.pendingWrites path).isSome then
    { state := { st with pendingWrites := insertA st.pendingWrites path { lastChange := now } },
      outs := [], timers := [] }
  -- lines 504-514: atomic mode parks an `unlink` and arms the flush timer.
  else if st.opts.atomic && event = Ev.unlink then
    { state := { st with pendingUnlinks := insertA st.pendingUnlinks path (event, path, stats) },
      outs := [], timers := [Timer.atomicFlush st.opts.atomicDelay] }
  else
    -- lines 516-519: an `add` over a pending unlink collapses to `change`.
    let collapse := st.opts.atomic && event = Ev.add &&
      (lookupA st.pendingUnlinks path).isSome
    let event1 := if collapse then Ev.change else event
    let st1 := if collapse then
        { st with pendingUnlinks := eraseA st.pendingUnlinks path } else st
    -- lines 523-536: awaitWriteFinish defers add/change after ready.
    match st1.opts.awaitWriteFinish with
    | some awf =>
        if (event1 = Ev.add || event1 = Ev.change) && st1.readyEmitted then
          let (st2, ts) := awaitWriteFinishEnter st1 path now awf.pollInterval
          { state := st2, outs := [], timers := ts }
        else
          emitTail st1 now event1 path stats statOf
    | none => emitTail st1 now event1 path stats statOf
where
  /-- Lines 540-557: change-throttle, `alwaysStat`, and the final
  `emitWithAll`. -/
  emitTail (st : WatcherState) (now : Int) (event : Ev) (path : String)
      (stats : Option Stats) (statOf : String → Option Stats) : EmitResult :=
    let (st', fresh) :=
      if event = Ev.change then throttle st "change" path 50 now else (st, true)
    if event = Ev.change && !fresh then { state := st', outs := [], timers := [] }
    else if st'.opts.alwaysStat && stats = none &&
        (event = Ev.add || event = Ev.addDir || event = Ev.change) then
      match statOf path with
      | none => { state := st', outs := [], timers := [] }
      | some s =>
          { state := st', outs := emitWithAll event path (some s), timers := [] }
    else
      { state := st', outs := emitWithAll event path stats, timers := [] }

/-! ## `FSWatcher.close` (part_007, lines 438-463)

`close()` sets the closed flag, removes all listeners, runs the closers,
destroys the streams, disposes every `DirEntry`, and clears the
`closers`, `watched`, `streams`, `symlinkPaths` and `throttled` trackers.
It does not touch `_pendingWrites` or `_pendingUnlinks`. -/

def close (st : WatcherState) : WatcherState :=
  if st.closed then st
  else
    { st with
      closed := true
      listeners := 0
      streams := 0
      readyCount := 0
      readyEmitted := false
      watched := []
      closers := []
      symlinkPaths := []
      throttled := [] }

/-! ## The ready latch (part_007, lines 326-337, 388-407, 595-597)

`_emitReady` is a closure over `readyCalls`; once the counter reaches
`_readyCount` the closure is replaced by `EMPTY_FN` (modelled by the
`emitDisabled` flag), so later calls do nothing.  `_readyCount` starts
`undefined`; `undefined` and the `NaN` produced by incrementing it are
both modelled as `none` (they fail every `>=` comparison and are falsy,
which is all the source observes). -/

structure ReadyS where
  readyCalls : Nat
  readyCount : Option Nat
  emitDisabled : Bool
  readyEmitted : Bool
  deriving DecidableEq, Repr

/-- The constructor state: `readyCalls = 0`, `_readyCount` undefined. -/
def initReadyS : ReadyS :=
  { readyCalls := 0, readyCount := none, emitDisabled := false, readyEmitted := false }

/-- One call of `this._emitReady()`; the `Bool` is whether `ready` fired. -/
def emitReadyCall (s : ReadyS) : ReadyS × Bool :=
  if s.emitDisabled then (s, false)
  else
    let calls := s.readyCalls + 1
    match s.readyCount with
    | some rc =>
        if rc ≤ calls then
          ({ s with readyCalls := calls, emitDisabled := true, readyEmitted := true }, true)
        else ({ s with readyCalls := calls }, false)
    | none => ({ s with readyCalls := calls }, false)

/-- The operations that touch the latch across the watcher's lifetime. -/
inductive ReadyOp : Type
  | emitReady
  /-- `add` (node-fs branch, lines 393-394): `if (!this._readyCount)
  this._readyCount = 0; this._readyCount += paths.length`. -/
  | addPaths (n : Nat)
  /-- `_incrReadyCount` (lines 595-597): `this._readyCount++`. -/
  | incr
  /-- `close` (lines 452-453): `_readyCount = 0`, `_readyEmitted = false`. -/
  | closeReset
  deriving DecidableEq, Repr

def readyStep (s : ReadyS) : ReadyOp → ReadyS × Bool
  | ReadyOp.emitReady => emitReadyCall s
  | ReadyOp.addPaths n =>
      ({ s with readyCount := some ((s.readyCount.getD 0) + n) }, false)
  | ReadyOp.incr =>
      ({ s with readyCount := s.readyCount.map (· + 1) }, false)
  | ReadyOp.closeReset =>
      ({ s with readyCount := some 0, readyEmitted := false }, false)

/-- Run a trace of latch operations, counting `ready` emissions. -/
def readyRun (s : ReadyS) : List ReadyOp → ReadyS × Nat
  | [] => (s, 0)
  | op :: rest =>
      ((readyRun (readyStep s op).1 rest).1,
        (if (readyStep s op).2 then 1 else 0) + (readyRun (readyStep s op).1 rest).2)

/-! ## Polling-backend listener
(`setFsWatchFileListener`, src/chokidar/lib/fsevents-handler.js,
lines 767-826) -/

/-- The condition under which the `fs.watchFile` callback signals the
listeners: `curr.size !== prev.size || currTime > prev.mtimeMs ||
currTime === 0` where `currTime = curr.mtimeMs`. -/
def watchFileSignals (curr prev : Stats) : Bool :=
  curr.size ≠ prev.size || curr.mtimeMs > prev.mtimeMs || curr.mtimeMs == 0

/-- What one `fs.watchFile` tick delivers to the change listeners:
`(pathArg, curr)` when the signal condition holds, nothing otherwise. -/
def watchFileListenerCalls (pathArg : String) (curr prev : Stats) :
    List (String × Stats) :=
  if watchFileSignals curr prev then [(pathArg, curr)] else []

/-! ## `FSWatcher.add` input validation
(part_007, lines 355-385 and `unifyPaths`, lines 794-800) -/

/-- A JavaScript value as it can appear in the `paths` argument. -/
inductive JVal : Type
  | str (s : String)
  | num (n : Int)
  | boolean (b : Bool)
  | nullv
  | arr (xs : List JVal)

/-- `arrify` (line 71): wrap a non-array value in a singleton list. -/
def arrify : JVal → List JVal
  | JVal.arr xs => xs
  | v => [v]

mutual

/-- `flatten` (lines 73-82) on one item. -/
def flattenJ : JVal → List JVal
  | JVal.arr xs => flattenJList xs
  | JVal.str s => [JVal.str s]
  | JVal.num n => [JVal.num n]
  | JVal.boolean b => [JVal.boolean b]
  | JVal.nullv => [JVal.nullv]

/-- `flatten` (lines 73-82) over a list of items. -/
def flattenJList : List JVal → List JVal
  | [] => []
  | v :: rest => flattenJ v ++ flattenJList rest

end

def isStr : JVal → Bool
  | JVal.str _ => true
  | _ => false

def getStr : JVal → Option String
  | JVal.str s => some s
  | _ => none

/-- Collapse every run of repeated `/` to a single `/` (the
`while (s.match(DOUBLE_SLASH_RE)) s = s.replace(DOUBLE_SLASH_RE, SLASH)`
loop of `toUnix`). -/
def collapseSlashRuns : List Char → List Char
  | [] => []
  | [c] => [c]
  | c :: c2 :: rest =>
      if c = '/' && c2 = '/' then collapseSlashRuns (c2 :: rest)
      else c :: collapseSlashRuns (c2 :: rest)

/-- `toUnix` (lines 85-97): backslashes to slashes, repeated slashes
collapsed, a leading double slash (UNC path) preserved. -/
def toUnix (input : String) : String :=
  let s := input.map (fun c => if c = '\\' then '/' else c)
  let collapsed := String.mk (collapseSlashRuns s.toList)
  if s.startsWith "//" then "/" ++ collapsed else collapsed

/-- `normalizePathToUnix` (line 100).  `sysPath.normalize`'s dot-segment
resolution is modelled as the identity (POSIX separators; no claim
depends on `.`/`..` resolution); the slash canonicalization is `toUnix`. -/
def normalizePathToUnix (p : String) : String := toUnix (toUnix p)

/-- `unifyPaths` (lines 794-800): flatten, then throw `TypeError`
(modelled as `none`) if any entry is not a string, else normalize. -/
def unifyPaths (paths_ : JVal) : Option (List String) :=
  let paths := flattenJList (arrify paths_)
  if paths.all isStr then
    some ((paths.filterMap getStr).map normalizePathToUnix)
  else none

/-- The state-mutating prefix of `FSWatcher.add` (lines 355-385), for a
watcher with no `cwd` configured (so the lines 362-371 remap is
skipped), up to the point where the surviving paths are handed to the
backend.  `none` in the second component means `add` threw the
`TypeError` from `unifyPaths`; note line 357 sets `this.closed = false`
before validation runs. -/
def addValidate (st : WatcherState) (paths_ : JVal) :
    WatcherState × Option (List String) :=
  let st1 := { st with closed := false }
  match unifyPaths paths_ with
  | none => (st1, none)
  | some paths =>
      let step := fun (acc : WatcherState × List String) (p : String) =>
        if p.startsWith "!" then
          ({ acc.1 with ignoredPaths := (p.drop 1) :: acc.1.ignoredPaths }, acc.2)
        else
          ({ acc.1 with ignoredPaths :=
              acc.1.ignoredPaths.filter (fun q => q != p && q != p ++ "/**") },
            acc.2 ++ [p])
      let res := paths.foldl step (st1, [])
      (res.1, some res.2)

/-! ## Brace-expansion range limit
(`src/braces/lib/expand.js` lines 61-113, `src/unnamed/part_006`
lines 29-35, `src/fill-range/index.js` lines 80-118) -/

/-- The JS value that ends up in `exceedsLimit`'s `limit` parameter:
`false`, `undefined`, or a number.  (`expand` passes `rangeLimit` there
for a two-argument range, but `options.step` — usually `undefined` —
for a pattern-stepped three-argument range, because of the
`exceedsLimit(...args, options.step, rangeLimit)` spread.) -/
inductive LimitArg : Type
  | falseV
  | undefV
  | num (l : Int)
  deriving DecidableEq, Repr

/-- The resolved `rangeLimit` option: `false` (disabled) or a number. -/
inductive RangeLimitOpt : Type
  | falseV
  | num (l : Int)
  deriving DecidableEq, Repr

/-- `exceedsLimit(min, max, step, limit)` from part_006, for integer
endpoints (the `isInteger` guards hold; non-integer endpoints skip the
check entirely and return `false`).  `limit === false` returns `false`
at once; a `limit` of `undefined` also yields `false`, because
`total >= undefined` is a `NaN` comparison.  JS computes
`(max - min) / step` in real arithmetic, so the quotient is taken in
`ℚ`; for `step = 0` JS produces `±Infinity`/`NaN`, whose only
`>=`-comparison effect is captured by the `min < max` test. -/
def exceedsLimit (min max step : Int) (limit : LimitArg) : Bool :=
  match limit with
  | LimitArg.falseV => false
  | LimitArg.undefV => false
  | LimitArg.num l =>
      if step = 0 then decide (min < max)
      else decide ((l : ℚ) ≤ ((max : ℚ) - (min : ℚ)) / (step : ℚ))

/-- The `while (descending ? a >= b : a <= b)` loop of `fillNumbers`
(fill-range lines 108-114), with explicit fuel; each iteration
contributes one element of the range (elements are modelled by their
numeric values; `pad`/`format` keep one output per iteration). -/
def fillLoop : Nat → Int → Int → Int → Bool → List Int
  | 0, _, _, _, _ => []
  | Nat.succ fuel, a, b, step, descending =>
      if (if descending then b ≤ a else a ≤ b) then
        a :: fillLoop fuel (if descending then a - step else a + step) b step descending
      else []

/-- `fillNumbers(start, end, step)` (fill-range lines 80-118) for
integer arguments: `step` is normalized by `Math.max(Math.abs(step), 1)`
and the loop runs ascending or descending.  The fuel `|start-end| + 1`
dominates the iteration count since the normalized step is ≥ 1. -/
def fillNumbers (start end_ step : Int) : List Int :=
  let s : Int := max (step.natAbs : Int) 1
  let descending := decide (end_ < start)
  fillLoop ((start - end_).natAbs + 1) start end_ s descending

/-- `rangeLimit` defaulting in `expand` (expand.js lines 62-63):
`options.rangeLimit === undefined ? 1000 : options.rangeLimit`. -/
def resolveRangeLimit : Option RangeLimitOpt → RangeLimitOpt
  | none => RangeLimitOpt.num 1000
  | some v => v

/-- The numeric-range branch of `walk` (expand.js lines 94-114) for a
range node whose `utils.reduce` arguments are the integers
`[min, max]` or `[min, max, patternStep]` (the inline `{a..b..s}`
step), with `options.step` as `optsStep` and the resolved `rangeLimit`.

The source calls `utils.exceedsLimit(...args, options.step, rangeLimit)`
(line 97), so the parameters `exceedsLimit` actually receives are
displaced by the spread:
* two-argument range: `(min, max, options.step, rangeLimit)` — the
  `step = 1` default applies when `options.step` is `undefined`;
* three-argument range: `(min, max, patternStep, options.step)` — the
  `rangeLimit` is a fifth argument and is discarded, so the limit
  parameter is `options.step` (usually `undefined`).

On success it produces `fill(...args, options)` (line 104): the fill
step is the inline `patternStep` when present (pattern steps are
non-empty strings, hence truthy), otherwise `step || opts.step || 1`
with the numeric `0` falsy. -/
def expandRangeNode (min max : Int) (patternStep optsStep : Option Int)
    (rangeLimit : RangeLimitOpt) : Except Unit (List Int) :=
  let exStep : Int :=
    match patternStep with
    | some p => p
    | none => optsStep.getD 1
  let exLimit : LimitArg :=
    match patternStep with
    | some _ =>
        match optsStep with
        | some s => LimitArg.num s
        | none => LimitArg.undefV
    | none =>
        match rangeLimit with
        | RangeLimitOpt.falseV => LimitArg.falseV
        | RangeLimitOpt.num l => LimitArg.num l
  let fillStep : Int :=
    match patternStep with
    | some p => p
    | none =>
        match optsStep with
        | some s => if s = 0 then 1 else s
        | none => 1
  if exceedsLimit min max exStep exLimit then Except.error ()
  else Except.ok (fillNumbers min max fillStep)

/-! ## Helper lemmas -/

@[simp] theorem lookupA_nil {α β : Type} [DecidableEq α] (a : α) :
    lookupA ([] : List (α × β)) a = none := rfl

@[simp] theorem lookupA_cons {α β : Type} [DecidableEq α] (k a : α) (v : β)
    (rest : List (α × β)) :
    lookupA ((k, v) :: rest) a = if k = a then some v else lookupA rest a := rfl

@[simp] theorem lookupA_eraseA {α β : Type} [DecidableEq α]
    (m : List (α × β)) (a : α) : lookupA (eraseA m a) a = none := by
  induction m with
  | nil => rfl
  | cons kv rest ih =>
      obtain ⟨k, v⟩ := kv
      by_cases h : k = a <;> simp [eraseA, h, ih]

@[simp] theorem lookupA_insertA {α β : Type} [DecidableEq α]
    (m : List (α × β)) (a : α) (b : β) : lookupA (insertA m a b) a = some b := by
  simp [insertA]

/-! ## Claim C3: `_handleError` emission condition -/

/-- Claim C3 (confirmed).  For every error the handler receives, an
`error` event is emitted iff the code is neither `ENOENT` nor `ENOTDIR`
and, under `ignorePermissionErrors`, also neither `EPERM` nor `EACCES`;
`ENOENT` and `ENOTDIR` are absorbed silently in every configuration. -/
theorem handleError_emits_iff (ipe : Bool) (e : JsError) :
    (handleErrorEmits ipe e = true ↔
      (e.code ≠ some "ENOENT" ∧ e.code ≠ some "ENOTDIR" ∧
        (ipe = true → e.code ≠ some "EPERM" ∧ e.code ≠ some "EACCES"))) ∧
    handleErrorEmits ipe { code := some "ENOENT" } = false ∧
    handleErrorEmits ipe { code := some "ENOTDIR" } = false := by
  refine ⟨?_, ?_, ?_⟩
  · cases ipe <;> simp [handleErrorEmits, and_assoc]
  · cases ipe <;> simp [handleErrorEmits]
  · cases ipe <;> simp [handleErrorEmits]

/-! ## Claim C10: named channel plus `all` mirror, except `error` -/

/-- Claim C10 (confirmed).  `emitWithAll` delivers every event on its own
named channel and mirrors it onto `all` with the same payload iff the
event is not `error`; no other channel receives anything. -/
theorem emitWithAll_mirrors_except_error (ev : Ev) (path : String)
    (stats : Option Stats) :
    (({ chan := Chan.named ev, path := path, stats := stats } : Output)
        ∈ emitWithAll ev path stats) ∧
    ((({ chan := Chan.all ev, path := path, stats := stats } : Output)
        ∈ emitWithAll ev path stats) ↔ ev ≠ Ev.error) ∧
    (∀ o ∈ emitWithAll ev path stats,
      o.chan = Chan.named ev ∨ o.chan = Chan.all ev) := by
  by_cases h : ev = Ev.error
  · subst h
    refine ⟨by simp [emitWithAll], by simp [emitWithAll], ?_⟩
    intro o ho
    simp [emitWithAll] at ho
    simp [ho]
  · refine ⟨by simp [emitWithAll, h], by simp [emitWithAll, h], ?_⟩
    intro o ho
    simp [emitWithAll, h] at ho
    rcases ho with ho | ho <;> simp [ho]

/-! ## Claim C7: polling-backend change condition -/

/-- Claim C7 counterexample.  With equal sizes, `curr.mtimeMs = 5` and
`prev.mtimeMs = 10`, the two `mtimeMs` values differ, so the claim says
a change is signalled; the code compares with `>` (not `!==`), so no
change is signalled and the listeners receive nothing. -/
theorem watchFile_mtime_decrease_not_signalled :
    watchFileSignals { size := 5, mtimeMs := 5 } { size := 5, mtimeMs := 10 } = false ∧
    (({ size := 5, mtimeMs := 5 } : Stats)).mtimeMs ≠
      (({ size := 5, mtimeMs := 10 } : Stats)).mtimeMs ∧
    watchFileListenerCalls "T/y" { size := 5, mtimeMs := 5 }
      { size := 5, mtimeMs := 10 } = [] := by
  decide

/-- Claim C7 amended (corrected).  Under the polling backend, on each tick
a change is signalled iff the size differs from the previous stat, or
`mtimeMs` is *strictly greater than* the previous `mtimeMs` (not merely
different), or `mtimeMs` is zero; the fresh stat accompanies the
change. -/
theorem watchFile_signals_iff (pathArg : String) (curr prev : Stats) :
    (watchFileSignals curr prev = true ↔
      (curr.size ≠ prev.size ∨ prev.mtimeMs < curr.mtimeMs ∨ curr.mtimeMs = 0)) ∧
    (watchFileSignals curr prev = true →
      watchFileListenerCalls pathArg curr prev = [(pathArg, curr)]) ∧
    (watchFileSignals curr prev = false →
      watchFileListenerCalls pathArg curr prev = []) := by
  refine ⟨?_, ?_, ?_⟩
  · simp [watchFileSignals, Nat.lt_iff_add_one_le]
    omega
  · intro h; simp [watchFileListenerCalls, h]
  · intro h; simp [watchFileListenerCalls, h]

/-- Claim C7 amended witness: the claim applied at a concrete tick where
the file was overwritten (`mtimeMs = 0`). -/
theorem watchFile_signals_iff_witness :
    (watchFileSignals { size := 3, mtimeMs := 0 } { size := 3, mtimeMs := 9 } = true ↔
      ((3 : Nat) ≠ 3 ∨ (9 : Nat) < 0 ∨ (0 : Nat) = 0)) ∧
    watchFileListenerCalls "T/y" { size := 3, mtimeMs := 0 }
      { size := 3, mtimeMs := 9 } = [("T/y", { size := 3, mtimeMs := 0 })] :=
  ⟨(watchFile_signals_iff "T/y" { size := 3, mtimeMs := 0 } { size := 3, mtimeMs := 9 }).1,
    (watchFile_signals_iff "T/y" { size := 3, mtimeMs := 0 }
      { size := 3, mtimeMs := 9 }).2.1 (by decide)⟩

/-! ## Claim C6: throttle table -/

/-- Claim C6 (confirmed).  The first acquisition for a `(kind, path)` pair
returns a fresh slot whose release is scheduled `window` ms later; a
further acquisition while the slot lives increments its counter and
returns a negative result; and a `change` event processed by the
pipeline while a change-throttle slot for its path is live is dropped
(no emission). -/
theorem throttle_fresh_then_suppress (st : WatcherState) (kind path : String)
    (w now : Int) :
    (lookupA st.throttled (kind, path) = none →
      (throttle st kind path w now).2 = true ∧
      lookupA (throttle st kind path w now).1.throttled (kind, path) =
        some { count := 0, releaseAt := now + w }) ∧
    (∀ slot, lookupA st.throttled (kind, path) = some slot →
      (throttle st kind path w now).2 = false ∧
      lookupA (throttle st kind path w now).1.throttled (kind, path) =
        some { slot with count := slot.count + 1 }) ∧
    (∀ (st' : WatcherState) (now' : Int) (p : String) (stats : Option Stats)
        (statOf : String → Option Stats) (slot : ThrottleSlot),
      st'.closed = false → st'.opts.awaitWriteFinish = none →
      lookupA st'.throttled ("change", p) = some slot →
      (emitRun st' now' Ev.change p stats statOf).outs = []) := by
  refine ⟨?_, ?_, ?_⟩
  · intro h
    simp [throttle, h]
  · intro slot h
    simp [throttle, h]
  · intro st' now' p stats statOf slot hclosed hawf hslot
    simp [emitRun, hclosed, hawf, emitRun.emitTail, throttle, hslot]

/-- Claim C6 witness: the three parts applied at a concrete table: a first
`change` for `T/a` at t=0 is fresh with release at t=50, a second
acquisition is suppressed with the counter bumped, and the pipeline
drops a `change` arriving while the slot lives. -/
theorem throttle_fresh_then_suppress_witness :
    (throttle
      { closed := false, readyEmitted := true,
        opts := { atomic := false, atomicDelay := 100, awaitWriteFinish := none,
                  alwaysStat := false, ignorePermissionErrors := false },
        watched := [], closers := [], ignoredPaths := [], throttled := [],
        symlinkPaths := [], streams := 0, listeners := 1, readyCount := 1,
        pendingUnlinks := [], pendingWrites := [] } "change" "T/a" 50 0).2 = true ∧
    lookupA (throttle
      { closed := false, readyEmitted := true,
        opts := { atomic := false, atomicDelay := 100, awaitWriteFinish := none,
                  alwaysStat := false, ignorePermissionErrors := false },
        watched := [], closers := [], ignoredPaths := [], throttled := [],
        symlinkPaths := [], streams := 0, listeners := 1, readyCount := 1,
        pendingUnlinks := [], pendingWrites := [] } "change" "T/a" 50 0).1.throttled
      ("change", "T/a") = some { count := 0, releaseAt := 0 + 50 } ∧
    (throttle
      { closed := false, readyEmitted := true,
        opts := { atomic := false, atomicDelay := 100, awaitWriteFinish := none,
                  alwaysStat := false, ignorePermissionErrors := false },
        watched := [], closers := [], ignoredPaths := [],
        throttled := [(("change", "T/a"), { count := 0, releaseAt := 50 })],
        symlinkPaths := [], streams := 0, listeners := 1, readyCount := 1,
        pendingUnlinks := [], pendingWrites := [] } "change" "T/a" 50 20).2 = false ∧
    (emitRun
      { closed := false, readyEmitted := true,
        opts := { atomic := false, atomicDelay := 100, awaitWriteFinish := none,
                  alwaysStat := false, ignorePermissionErrors := false },
        watched := [], closers := [], ignoredPaths := [],
        throttled := [(("change", "T/a"), { count := 0, releaseAt := 50 })],
        symlinkPaths := [], streams := 0, listeners := 1, readyCount := 1,
        pendingUnlinks := [], pendingWrites := [] } 20 Ev.change "T/a" none
      (fun _ => none)).outs = [] := by
  refine ⟨?_, ?_, ?_, ?_⟩
  · exact ((throttle_fresh_then_suppress _ "change" "T/a" 50 0).1 (by decide)).1
  · exact ((throttle_fresh_then_suppress _ "change" "T/a" 50 0).1 (by decide)).2
  · exact ((throttle_fresh_then_suppress _ "change" "T/a" 50 20).2.1
      { count := 0, releaseAt := 50 } (by decide)).1
  · exact (throttle_fresh_then_suppress
      { closed := false, readyEmitted := true,
        opts := { atomic := false, atomicDelay := 100, awaitWriteFinish := none,
                  alwaysStat := false, ignorePermissionErrors := false },
        watched := [], closers := [], ignoredPaths := [], throttled := [],
        symlinkPaths := [], streams := 0, listeners := 1, readyCount := 1,
        pendingUnlinks := [], pendingWrites := [] } "change" "T/a" 50 0).2.2
      _ 20 "T/a" none (fun _ => none) { count := 0, releaseAt := 50 }
      rfl rfl (by decide)

/-! ## Claim C4: `ready` fires exactly once -/

theorem readyStep_of_disabled (s : ReadyS) (op : ReadyOp)
    (h : s.emitDisabled = true) :
    (readyStep s op).1.emitDisabled = true ∧ (readyStep s op).2 = false := by
  cases op <;> simp [readyStep, emitReadyCall, h]

theorem readyStep_fired_disabled (s : ReadyS) (op : ReadyOp)
    (h : (readyStep s op).2 = true) : (readyStep s op).1.emitDisabled = true := by
  cases op with
  | emitReady =>
      by_cases hd : s.emitDisabled = true
      · simp [readyStep, emitReadyCall, hd] at h
      · simp only [Bool.not_eq_true] at hd
        simp only [readyStep, emitReadyCall, hd, Bool.false_eq_true, if_false] at h ⊢
        cases hrc : s.readyCount with
        | none => simp [hrc] at h
        | some rc =>
            simp only [hrc] at h ⊢
            by_cases hle : rc ≤ s.readyCalls + 1
            · simp [hle]
            · simp [hle] at h
  | addPaths n => simp [readyStep] at h
  | incr => simp [readyStep] at h
  | closeReset => simp [readyStep] at h

theorem readyRun_of_disabled (ops : List ReadyOp) :
    ∀ s : ReadyS, s.emitDisabled = true →
      (readyRun s ops).2 = 0 ∧ (readyRun s ops).1.emitDisabled = true := by
  induction ops with
  | nil => intro s h; simpa [readyRun] using h
  | cons op rest ih =>
      intro s h
      obtain ⟨hd, hf⟩ := readyStep_of_disabled s op h
      simp only [readyRun, hf, if_false]
      obtain ⟨h1, h2⟩ := ih _ hd
      simp [h1, h2]

theorem readyRun_count_le_one (ops : List ReadyOp) :
    ∀ s : ReadyS, (readyRun s ops).2 ≤ 1 := by
  induction ops with
  | nil => intro s; simp [readyRun]
  | cons op rest ih =>
      intro s
      simp only [readyRun]
      by_cases hf : (readyStep s op).2 = true
      · have hd := readyStep_fired_disabled s op hf
        have := (readyRun_of_disabled rest _ hd).1
        simp [hf, this]
      · simp only [Bool.not_eq_true] at hf
        simpa [hf] using ih (readyStep s op).1

theorem readyRun_append (ops extra : List ReadyOp) :
    ∀ s : ReadyS,
      (readyRun s (ops ++ extra)).2 =
        (readyRun s ops).2 + (readyRun (readyRun s ops).1 extra).2 := by
  induction ops with
  | nil => intro s; simp [readyRun]
  | cons op rest ih =>
      intro s
      simp only [List.cons_append, readyRun, List.append_eq, ih (readyStep s op).1]
      omega

theorem readyRun_pos_disabled (ops : List ReadyOp) :
    ∀ s : ReadyS, 1 ≤ (readyRun s ops).2 → (readyRun s ops).1.emitDisabled = true := by
  induction ops with
  | nil => intro s h; simp [readyRun] at h
  | cons op rest ih =>
      intro s h
      simp only [readyRun] at h ⊢
      by_cases hf : (readyStep s op).2 = true
      · exact (readyRun_of_disabled rest _ (readyStep_fired_disabled s op hf)).2
      · simp only [Bool.not_eq_true] at hf
        simp only [hf, Bool.false_eq_true, if_false, Nat.zero_add] at h
        exact ih _ h

/-- Claim C4 (confirmed).  Over any lifetime trace of latch operations
(backend `_emitReady` calls, `add`-driven counter bumps,
`_incrReadyCount`, `close` resets), `ready` is emitted at most once from
the constructor state; once it has been emitted, any continuation of
the trace — including further `add` calls — emits it zero more times;
and a call fires exactly at the moment the call counter first reaches
the (defined) ready target. -/
theorem ready_fires_exactly_once (ops extra : List ReadyOp) :
    (readyRun initReadyS ops).2 ≤ 1 ∧
    (1 ≤ (readyRun initReadyS ops).2 →
      (readyRun initReadyS (ops ++ extra)).2 = (readyRun initReadyS ops).2) ∧
    (∀ s : ReadyS, s.emitDisabled = false →
      ((emitReadyCall s).2 = true ↔
        ∃ rc, s.readyCount = some rc ∧ rc ≤ s.readyCalls + 1)) := by
  refine ⟨readyRun_count_le_one ops initReadyS, ?_, ?_⟩
  · intro h
    have hd := readyRun_pos_disabled ops initReadyS h
    have := (readyRun_of_disabled extra _ hd).1
    rw [readyRun_append ops extra initReadyS, this, Nat.add_zero]
  · intro s hs
    simp only [emitReadyCall, hs, Bool.false_eq_true, if_false]
    cases hrc : s.readyCount with
    | none => simp
    | some rc =>
        by_cases hle : rc ≤ s.readyCalls + 1 <;> simp [hle]

/-- Claim C4 witness: a trace that adds two paths, completes both, and
then runs a second `add`-plus-completion round: `ready` fires once in
the first round and zero times afterwards. -/
theorem ready_fires_exactly_once_witness :
    (readyRun initReadyS
      [ReadyOp.addPaths 2, ReadyOp.emitReady, ReadyOp.emitReady]).2 ≤ 1 ∧
    (readyRun initReadyS
      ([ReadyOp.addPaths 2, ReadyOp.emitReady, ReadyOp.emitReady] ++
        [ReadyOp.addPaths 1, ReadyOp.emitReady])).2 =
      (readyRun initReadyS
        [ReadyOp.addPaths 2, ReadyOp.emitReady, ReadyOp.emitReady]).2 ∧
    ((emitReadyCall
        { readyCalls := 1, readyCount := some 2, emitDisabled := false,
          readyEmitted := false }).2 = true ↔
      ∃ rc, (some 2 : Option Nat) = some rc ∧ rc ≤ 1 + 1) :=
  ⟨(ready_fires_exactly_once
      [ReadyOp.addPaths 2, ReadyOp.emitReady, ReadyOp.emitReady]
      [ReadyOp.addPaths 1, ReadyOp.emitReady]).1,
    (ready_fires_exactly_once
      [ReadyOp.addPaths 2, ReadyOp.emitReady, ReadyOp.emitReady]
      [ReadyOp.addPaths 1, ReadyOp.emitReady]).2.1 (by decide),
    (ready_fires_exactly_once
      [ReadyOp.addPaths 2, ReadyOp.emitReady, ReadyOp.emitReady]
      [ReadyOp.addPaths 1, ReadyOp.emitReady]).2.2
      { readyCalls := 1, readyCount := some 2, emitDisabled := false,
        readyEmitted := false } rfl⟩

/-! ## Claim C1: atomic collapse of `unlink`+`add` into `change` -/

/-- Claim C1 counterexample.  A watcher with `atomic` enabled, a
pending-unlink slot for `T/c`, and a live change-throttle slot for
`T/c` (a `change` for the same path was emitted less than 50 ms ago):
processing the `add` cancels the pending unlink and collapses to
`change`, but the collapsed `change` then hits the throttle and is
dropped, so *no* event is emitted — contrary to the claim that a single
`change` is emitted for every such `add`. -/
theorem atomic_add_collapse_counterexample :
    (emitRun
      { closed := false, readyEmitted := true,
        opts := { atomic := true, atomicDelay := 100, awaitWriteFinish := none,
                  alwaysStat := false, ignorePermissionErrors := false },
        watched := [], closers := [], ignoredPaths := [],
        throttled := [(("change", "T/c"), { count := 0, releaseAt := 60 })],
        symlinkPaths := [], streams := 0, listeners := 1, readyCount := 1,
        pendingUnlinks := [("T/c", (Ev.unlink, "T/c", none))],
        pendingWrites := [] } 30 Ev.add "T/c" none (fun _ => none)).outs = [] ∧
    lookupA (emitRun
      { closed := false, readyEmitted := true,
        opts := { atomic := true, atomicDelay := 100, awaitWriteFinish := none,
                  alwaysStat := false, ignorePermissionErrors := false },
        watched := [], closers := [], ignoredPaths := [],
        throttled := [(("change", "T/c"), { count := 0, releaseAt := 60 })],
        symlinkPaths := [], streams := 0, listeners := 1, readyCount := 1,
        pendingUnlinks := [("T/c", (Ev.unlink, "T/c", none))],
        pendingWrites := [] } 30 Ev.add "T/c" none
      (fun _ => none)).state.pendingUnlinks "T/c" = none := by
  constructor <;> rfl

/-- Claim C1 amended (corrected).  For a watcher with `atomic` enabled,
when the pipeline processes an `add` for a path holding a pending-unlink
slot, the pending unlink is cancelled and the event is collapsed to
`change`; provided additionally that no change-throttle slot for the
path is live, `awaitWriteFinish` is disabled and `alwaysStat` is off,
exactly one `change` is emitted for the path (on its named channel and
on `all`) and neither the `unlink` nor the `add` is delivered. -/
theorem atomic_add_collapse (st : WatcherState) (now : Int) (path : String)
    (stats : Option Stats) (statOf : String → Option Stats)
    (pu : Ev × String × Option Stats)
    (hclosed : st.closed = false) (hatomic : st.opts.atomic = true)
    (hawf : st.opts.awaitWriteFinish = none)
    (hstat : st.opts.alwaysStat = false)
    (hpu : lookupA st.pendingUnlinks path = some pu)
    (hthr : lookupA st.throttled ("change", path) = none) :
    (emitRun st now Ev.add path stats statOf).outs =
      [{ chan := Chan.named Ev.change, path := path, stats := stats },
        { chan := Chan.all Ev.change, path := path, stats := stats }] ∧
    lookupA (emitRun st now Ev.add path stats statOf).state.pendingUnlinks
      path = none := by
  simp [emitRun, emitRun.emitTail, throttle, emitWithAll,
    hclosed, hatomic, hawf, hstat, hpu, hthr]

/-- Claim C1 amended witness: the amended claim at a concrete atomic-save
race (`unlink T/c` parked, `add T/c` arrives, no live throttle slot):
exactly one `change T/c` on the named and `all` channels. -/
theorem atomic_add_collapse_witness :
    (emitRun
      { closed := false, readyEmitted := true,
        opts := { atomic := true, atomicDelay := 100, awaitWriteFinish := none,
                  alwaysStat := false, ignorePermissionErrors := false },
        watched := [], closers := [], ignoredPaths := [], throttled := [],
        symlinkPaths := [], streams := 0, listeners := 1, readyCount := 1,
        pendingUnlinks := [("T/c", (Ev.unlink, "T/c", none))],
        pendingWrites := [] } 30 Ev.add "T/c" none (fun _ => none)).outs =
      [{ chan := Chan.named Ev.change, path := "T/c", stats := none },
        { chan := Chan.all Ev.change, path := "T/c", stats := none }] ∧
    lookupA (emitRun
      { closed := false, readyEmitted := true,
        opts := { atomic := true, atomicDelay := 100, awaitWriteFinish := none,
                  alwaysStat := false, ignorePermissionErrors := false },
        watched := [], closers := [], ignoredPaths := [], throttled := [],
        symlinkPaths := [], streams := 0, listeners := 1, readyCount := 1,
        pendingUnlinks := [("T/c", (Ev.unlink, "T/c", none))],
        pendingWrites := [] } 30 Ev.add "T/c" none
      (fun _ => none)).state.pendingUnlinks "T/c" = none :=
  atomic_add_collapse _ 30 "T/c" none (fun _ => none)
    (Ev.unlink, "T/c", none) rfl rfl rfl rfl (by decide) rfl

/-! ## Claim C2: awaitWriteFinish settling condition -/

/-- Claim C2 counterexample.  With `stabilityThreshold = 2000` and the
slot created at t = 0, a *first* poll at t = 5000 (so `prev = none`: no
earlier poll ever observed a size) already satisfies
`now − last_change_time ≥ threshold` and emits immediately — there are
no "two consecutive polls reporting the same size", contrary to the
claim's stated conjunction.  (This configuration arises whenever
`pollInterval ≥ stabilityThreshold`, e.g. `pollInterval = 5000`.) -/
theorem awf_first_poll_emits_counterexample :
    awfPollStep 2000 0 none 5000 { size := 10, mtimeMs := 1 } =
      Sum.inr { size := 10, mtimeMs := 1 } := by
  rfl

/-- Claim C2 amended (corrected).  When `awaitWriteFinish` is configured,
every `add`/`change` observed after `ready` (with no pending-write slot
yet) is withheld: the pipeline emits nothing, records a slot with
`lastChange := now`, and arms the first poll.  On every poll *after the
first* (with a positive threshold), the suppressed event is emitted
exactly when `now − last_change_time ≥ stability_threshold` and the poll
reports the same size as the previous poll (two consecutive equal
sizes); on the first poll the size condition is vacuous and elapsed time
alone decides.  Emission returns the final stat result and stands for
dropping the slot. -/
theorem awf_withhold_and_settle (st : WatcherState) (now : Int) (path : String)
    (stats : Option Stats) (statOf : String → Option Stats) (awf : AwfOpts)
    (ev : Ev) (threshold lastChange pollNow : Int) (prev cur : Stats)
    (hclosed : st.closed = false)
    (hawf : st.opts.awaitWriteFinish = some awf)
    (hpw : lookupA st.pendingWrites path = none)
    (hready : st.readyEmitted = true)
    (hev : ev = Ev.add ∨ ev = Ev.change)
    (hth : 0 < threshold) :
    ((emitRun st now ev path stats statOf).outs = [] ∧
      lookupA (emitRun st now ev path stats statOf).state.pendingWrites path =
        some { lastChange := now } ∧
      (emitRun st now ev path stats statOf).timers =
        [Timer.awfPoll path awf.pollInterval]) ∧
    (awfPollStep threshold lastChange (some prev) pollNow cur = Sum.inr cur ↔
      (cur.size = prev.size ∧ threshold ≤ pollNow - lastChange)) ∧
    (∀ r : Stats, awfPollStep threshold lastChange (some prev) pollNow cur =
      Sum.inr r → r = cur) := by
  refine ⟨?_, ?_, ?_⟩
  · rcases hev with h | h <;> subst h <;>
      by_cases hcol : st.opts.atomic = true ∧ (lookupA st.pendingUnlinks path).isSome = true <;>
      simp [emitRun, awaitWriteFinishEnter, hclosed, hawf, hpw, hready, hcol]
  · by_cases hsz : cur.size = prev.size
    · simp [awfPollStep, hsz]
    · have h0 : ¬ threshold ≤ pollNow - pollNow := by omega
      simp only [awfPollStep, hsz]
      simp [hsz, h0]
      exact hth
  · intro r h
    by_cases hsz : cur.size = prev.size <;>
      simp [awfPollStep, hsz] at h <;> split at h <;> simp_all

/-- Claim C2 amended witness: a `change` withheld after `ready` with
defaults (`threshold = 2000`), then a second poll 2100 ms after the last
size change observing the same size: the event settles with the final
stat. -/
theorem awf_withhold_and_settle_witness :
    ((emitRun
      { closed := false, readyEmitted := true,
        opts := { atomic := false, atomicDelay := 100,
                  awaitWriteFinish := some { stabilityThreshold := 2000, pollInterval := 100 },
                  alwaysStat := false, ignorePermissionErrors := false },
        watched := [], closers := [], ignoredPaths := [], throttled := [],
        symlinkPaths := [], streams := 0, listeners := 1, readyCount := 1,
        pendingUnlinks := [], pendingWrites := [] } 10 Ev.change "T/big" none
        (fun _ => none)).outs = [] ∧
      lookupA (emitRun
        { closed := false, readyEmitted := true,
          opts := { atomic := false, atomicDelay := 100,
                    awaitWriteFinish := some { stabilityThreshold := 2000, pollInterval := 100 },
                    alwaysStat := false, ignorePermissionErrors := false },
          watched := [], closers := [], ignoredPaths := [], throttled := [],
          symlinkPaths := [], streams := 0, listeners := 1, readyCount := 1,
          pendingUnlinks := [], pendingWrites := [] } 10 Ev.change "T/big" none
        (fun _ => none)).state.pendingWrites "T/big" = some { lastChange := 10 } ∧
      (emitRun
        { closed := false, readyEmitted := true,
          opts := { atomic := false, atomicDelay := 100,
                    awaitWriteFinish := some { stabilityThreshold := 2000, pollInterval := 100 },
                    alwaysStat := false, ignorePermissionErrors := false },
          watched := [], closers := [], ignoredPaths := [], throttled := [],
          symlinkPaths := [], streams := 0, listeners := 1, readyCount := 1,
          pendingUnlinks := [], pendingWrites := [] } 10 Ev.change "T/big" none
        (fun _ => none)).timers = [Timer.awfPoll "T/big" 100]) ∧
    (awfPollStep 2000 10 (some { size := 700, mtimeMs := 5 }) 2110
        { size := 700, mtimeMs := 5 } =
        Sum.inr { size := 700, mtimeMs := 5 } ↔
      ((700 : Nat) = 700 ∧ (2000 : Int) ≤ 2110 - 10)) ∧
    (∀ r : Stats, awfPollStep 2000 10 (some { size := 700, mtimeMs := 5 }) 2110
        { size := 700, mtimeMs := 5 } = Sum.inr r →
      r = { size := 700, mtimeMs := 5 }) :=
  awf_withhold_and_settle _ 10 "T/big" none (fun _ => none)
    { stabilityThreshold := 2000, pollInterval := 100 } Ev.change
    2000 10 2110 { size := 700, mtimeMs := 5 } { size := 700, mtimeMs := 5 }
    rfl rfl rfl rfl (Or.inr rfl) (by decide)

/-! ## Claim C5: quiescence after `close()` -/

/-- Claim C5 counterexample.  A watcher closed while holding a
pending-unlink slot for `T/c` and a pending-write slot for `T/b`:
`close()` clears the throttle table, registry, closers, streams and
symlink map, but leaves both pending slots in place — so not "every
throttle slot, pending-write slot, and pending-unlink slot has been
cancelled", and the slots' timers stay armed. -/
theorem close_leaves_pending_slots_counterexample :
    lookupA (close
      { closed := false, readyEmitted := true,
        opts := { atomic := true, atomicDelay := 100,
                  awaitWriteFinish := some { stabilityThreshold := 2000, pollInterval := 100 },
                  alwaysStat := false, ignorePermissionErrors := false },
        watched := [("T", ["b", "c"])], closers := ["T"], ignoredPaths := [],
        throttled := [], symlinkPaths := [], streams := 1, listeners := 1,
        readyCount := 1,
        pendingUnlinks := [("T/c", (Ev.unlink, "T/c", none))],
        pendingWrites := [("T/b", { lastChange := 7 })] }).pendingUnlinks "T/c" =
      some (Ev.unlink, "T/c", none) ∧
    lookupA (close
      { closed := false, readyEmitted := true,
        opts := { atomic := true, atomicDelay := 100,
                  awaitWriteFinish := some { stabilityThreshold := 2000, pollInterval := 100 },
                  alwaysStat := false, ignorePermissionErrors := false },
        watched := [("T", ["b", "c"])], closers := ["T"], ignoredPaths := [],
        throttled := [], symlinkPaths := [], streams := 1, listeners := 1,
        readyCount := 1,
        pendingUnlinks := [("T/c", (Ev.unlink, "T/c", none))],
        pendingWrites := [("T/b", { lastChange := 7 })] }).pendingWrites "T/b" =
      some { lastChange := 7 } := by
  constructor <;> rfl

/-- Claim C5 amended (corrected).  After `close()` resolves, the watcher
is marked closed with all listeners removed; the throttle table,
directory registry, closers, streams and symlink map are cleared; and
the emission pipeline discards every subsequent event and arms no
further timer.  However, pending-write and pending-unlink slots are
*not* cancelled: they survive `close()` unchanged (their timers remain
armed; only the listener removal keeps their late firings
unobservable). -/
theorem close_quiescence (st : WatcherState) (hclosed : st.closed = false) :
    (close st).closed = true ∧ (close st).listeners = 0 ∧
    (close st).throttled = [] ∧ (close st).watched = [] ∧
    (close st).closers = [] ∧ (close st).streams = 0 ∧
    (close st).symlinkPaths = [] ∧
    (close st).pendingWrites = st.pendingWrites ∧
    (close st).pendingUnlinks = st.pendingUnlinks ∧
    (∀ (now : Int) (ev : Ev) (path : String) (stats : Option Stats)
        (statOf : String → Option Stats),
      (emitRun (close st) now ev path stats statOf).outs = [] ∧
      (emitRun (close st) now ev path stats statOf).timers = []) := by
  have hc : (close st).closed = true := by simp [close, hclosed]
  refine ⟨hc, ?_, ?_, ?_, ?_, ?_, ?_, ?_, ?_, ?_⟩
  all_goals first
    | (intro now ev path stats statOf; simp [emitRun, hc])
    | simp [close, hclosed]

/-- Claim C5 amended witness: the amended claim at the counterexample's
concrete watcher. -/
theorem close_quiescence_witness :
    (close
      { closed := false, readyEmitted := true,
        opts := { atomic := true, atomicDelay := 100,
                  awaitWriteFinish := some { stabilityThreshold := 2000, pollInterval := 100 },
                  alwaysStat := false, ignorePermissionErrors := false },
        watched := [("T", ["b", "c"])], closers := ["T"], ignoredPaths := [],
        throttled := [], symlinkPaths := [], streams := 1, listeners := 1,
        readyCount := 1,
        pendingUnlinks := [("T/c", (Ev.unlink, "T/c", none))],
        pendingWrites := [("T/b", { lastChange := 7 })] }).closed = true ∧
    (emitRun (close
      { closed := false, readyEmitted := true,
        opts := { atomic := true, atomicDelay := 100,
                  awaitWriteFinish := some { stabilityThreshold := 2000, pollInterval := 100 },
                  alwaysStat := false, ignorePermissionErrors := false },
        watched := [("T", ["b", "c"])], closers := ["T"], ignoredPaths := [],
        throttled := [], symlinkPaths := [], streams := 1, listeners := 1,
        readyCount := 1,
        pendingUnlinks := [("T/c", (Ev.unlink, "T/c", none))],
        pendingWrites := [("T/b", { lastChange := 7 })] }) 99 Ev.add "T/a" none
      (fun _ => none)).outs = [] :=
  ⟨(close_quiescence _ rfl).1,
    ((close_quiescence _ rfl).2.2.2.2.2.2.2.2.2 99 Ev.add "T/a" none
      (fun _ => none)).1⟩

/-! ## Claim C8: `add` with a non-string path -/

/-- Claim C8 counterexample.  Calling `add(42)` on a *closed* watcher:
`unifyPaths` throws the `TypeError` as claimed, and no path is added and
the ignore set is untouched — but `add` executes `this.closed = false`
(line 357) *before* validating, so the closed flag does not keep its
prior value: the previously closed watcher is left marked open. -/
theorem add_nonstring_flips_closed_counterexample :
    (addValidate
      { closed := true, readyEmitted := false,
        opts := { atomic := false, atomicDelay := 100, awaitWriteFinish := none,
                  alwaysStat := false, ignorePermissionErrors := false },
        watched := [], closers := [], ignoredPaths := ["T/x.tmp"],
        throttled := [], symlinkPaths := [], streams := 0, listeners := 0,
        readyCount := 0, pendingUnlinks := [], pendingWrites := [] }
      (JVal.num 42)).2 = none ∧
    (addValidate
      { closed := true, readyEmitted := false,
        opts := { atomic := false, atomicDelay := 100, awaitWriteFinish := none,
                  alwaysStat := false, ignorePermissionErrors := false },
        watched := [], closers := [], ignoredPaths := ["T/x.tmp"],
        throttled := [], symlinkPaths := [], streams := 0, listeners := 0,
        readyCount := 0, pendingUnlinks := [], pendingWrites := [] }
      (JVal.num 42)).1.closed = false ∧
    (addValidate
      { closed := true, readyEmitted := false,
        opts := { atomic := false, atomicDelay := 100, awaitWriteFinish := none,
                  alwaysStat := false, ignorePermissionErrors := false },
        watched := [], closers := [], ignoredPaths := ["T/x.tmp"],
        throttled := [], symlinkPaths := [], streams := 0, listeners := 0,
        readyCount := 0, pendingUnlinks := [], pendingWrites := [] }
      (JVal.num 42)).1.ignoredPaths = ["T/x.tmp"] := by
  refine ⟨rfl, rfl, rfl⟩

/-- Claim C8 amended (corrected).  If `add` is called with a paths
argument containing any non-string entry (after flattening), `add`
raises a `TypeError`; no path is added and the ignore set is not
mutated, but the closed flag does *not* keep its prior value: it is
unconditionally set to `false` before validation, so the whole
resulting state is exactly the input state with `closed := false`. -/
theorem add_nonstring_typeerror (st : WatcherState) (v : JVal)
    (h : (flattenJList (arrify v)).all isStr = false) :
    (addValidate st v).2 = none ∧
    (addValidate st v).1 = { st with closed := false } := by
  constructor <;> simp [addValidate, unifyPaths, h]

/-- Claim C8 amended witness: `add(['T/a', 42])` on an open watcher. -/
theorem add_nonstring_typeerror_witness :
    (addValidate
      { closed := false, readyEmitted := true,
        opts := { atomic := false, atomicDelay := 100, awaitWriteFinish := none,
                  alwaysStat := false, ignorePermissionErrors := false },
        watched := [], closers := [], ignoredPaths := [], throttled := [],
        symlinkPaths := [], streams := 0, listeners := 1, readyCount := 1,
        pendingUnlinks := [], pendingWrites := [] }
      (JVal.arr [JVal.str "T/a", JVal.num 42])).2 = none ∧
    (addValidate
      { closed := false, readyEmitted := true,
        opts := { atomic := false, atomicDelay := 100, awaitWriteFinish := none,
                  alwaysStat := false, ignorePermissionErrors := false },
        watched := [], closers := [], ignoredPaths := [], throttled := [],
        symlinkPaths := [], streams := 0, listeners := 1, readyCount := 1,
        pendingUnlinks := [], pendingWrites := [] }
      (JVal.arr [JVal.str "T/a", JVal.num 42])).1 =
      { closed := false, readyEmitted := true,
        opts := { atomic := false, atomicDelay := 100, awaitWriteFinish := none,
                  alwaysStat := false, ignorePermissionErrors := false },
        watched := [], closers := [], ignoredPaths := [], throttled := [],
        symlinkPaths := [], streams := 0, listeners := 1, readyCount := 1,
        pendingUnlinks := [], pendingWrites := [] } :=
  add_nonstring_typeerror _ (JVal.arr [JVal.str "T/a", JVal.num 42]) rfl

/-! ## Claim C9: brace-expansion range limit -/

theorem fillLoop_nil_of_lt (n : Nat) (a b s : Int) (h : b < a) :
    fillLoop n a b s false = [] := by
  cases n with
  | zero => rfl
  | succ m => simp [fillLoop]; omega

theorem fillLoop_asc_length :
    ∀ (fuel : Nat) (a b s : Int), 0 < s → a ≤ b → (b - a).toNat < fuel →
      (fillLoop fuel a b s false).length = (b - a).toNat / s.toNat + 1 := by
  intro fuel
  induction fuel with
  | zero => intro a b s _ hab hfuel; omega
  | succ n ih =>
      intro a b s hs hab hfuel
      simp only [fillLoop, Bool.false_eq_true, if_false, if_pos hab, List.length_cons]
      by_cases h2 : a + s ≤ b
      · rw [ih (a + s) b s hs h2 (by omega)]
        have hbs : (b - a).toNat = (b - (a + s)).toNat + s.toNat := by omega
        have h0 : 0 < s.toNat := by omega
        rw [hbs, Nat.add_div_right _ h0]
      · rw [fillLoop_nil_of_lt n (a + s) b s (by omega)]
        have hdiv : (b - a).toNat / s.toNat = 0 := Nat.div_eq_of_lt (by omega)
        simp [hdiv]

theorem fillLoop_desc_nil_of_lt (n : Nat) (a b s : Int) (h : a < b) :
    fillLoop n a b s true = [] := by
  cases n with
  | zero => rfl
  | succ m => simp [fillLoop]; omega

theorem fillLoop_desc_length :
    ∀ (fuel : Nat) (a b s : Int), 0 < s → b ≤ a → (a - b).toNat < fuel →
      (fillLoop fuel a b s true).length = (a - b).toNat / s.toNat + 1 := by
  intro fuel
  induction fuel with
  | zero => intro a b s _ hab hfuel; omega
  | succ n ih =>
      intro a b s hs hab hfuel
      simp only [fillLoop, if_true, if_pos hab, List.length_cons]
      by_cases h2 : b ≤ a - s
      · rw [ih (a - s) b s hs h2 (by omega)]
        have hbs : (a - b).toNat = ((a - s) - b).toNat + s.toNat := by omega
        have h0 : 0 < s.toNat := by omega
        rw [hbs, Nat.add_div_right _ h0]
      · rw [fillLoop_desc_nil_of_lt n (a - s) b s (by omega)]
        have hdiv : (a - b).toNat / s.toNat = 0 := Nat.div_eq_of_lt (by omega)
        simp [hdiv]

theorem fillNumbers_asc_length (mn mx step : Int) (hmm : mn ≤ mx)
    (hstep : 0 < step) :
    (fillNumbers mn mx step).length = (mx - mn).toNat / step.toNat + 1 := by
  have hsn : (max (step.natAbs : Int) 1) = step := by
    rw [Int.natAbs_of_nonneg hstep.le]
    exact max_eq_left hstep
  have hdesc : decide (mx < mn) = false := by simp; omega
  simp only [fillNumbers, hsn, hdesc]
  exact fillLoop_asc_length _ mn mx step hstep hmm (by omega)

theorem fillNumbers_desc_length (mn mx step : Int) (hmm : mx < mn)
    (hstep : 0 < step) :
    (fillNumbers mn mx step).length = (mn - mx).toNat / step.toNat + 1 := by
  have hsn : (max (step.natAbs : Int) 1) = step := by
    rw [Int.natAbs_of_nonneg hstep.le]
    exact max_eq_left hstep
  have hdesc : decide (mx < mn) = true := by simp; omega
  simp only [fillNumbers, hsn, hdesc]
  exact fillLoop_desc_length _ mn mx step hstep hmm.le (by omega)

theorem exceedsLimit_iff (min max step l : Int) (hstep : 0 < step) :
    exceedsLimit min max step (LimitArg.num l) = true ↔ l * step ≤ max - min := by
  have hstep' : (step : ℚ) ≠ 0 := by exact_mod_cast hstep.ne'
  simp only [exceedsLimit, show ¬ step = 0 by omega, if_false, decide_eq_true_eq]
  rw [le_div_iff₀ (by exact_mod_cast hstep)]
  constructor
  · intro h; exact_mod_cast h
  · intro h; exact_mod_cast h

/-- Claim C9 counterexample.  The descending range `{2000..1}` (no
inline step, default options) with the default bound 1000: its unrolled
set has 2000 elements, exceeding the bound, yet `exceedsLimit` computes
`(1 − 2000)/1 = −1999 ≥ 1000 = false` (the difference is signed, never
an absolute value), so expansion succeeds instead of failing with the
range-limit error. -/
theorem braces_descending_range_escapes_limit :
    expandRangeNode 2000 1 none none (resolveRangeLimit none) =
      Except.ok (fillNumbers 2000 1 1) ∧
    (fillNumbers 2000 1 1).length = 2000 ∧ 1000 < 2000 := by
  have hx : exceedsLimit 2000 1 1 (LimitArg.num 1000) = false := by
    simp only [exceedsLimit]
    norm_num
  refine ⟨by simp [expandRangeNode, resolveRangeLimit, hx], ?_, by norm_num⟩
  rw [fillNumbers_desc_length 2000 1 1 (by norm_num) (by norm_num)]
  decide

/-- Claim C9 amended (corrected).  For an *ascending* integer range
*without an inline pattern step* — so the step reaches `exceedsLimit`
via `options.step` (or the default 1) and the resolved `rangeLimit`
actually lands in the limit parameter — and with that step positive,
range expansion fails with the range-limit error exactly when the
unrolled set of expansions exceeds the configured bound (whose default
is 1000), and otherwise expands without error to the full range.  The
check is escaped entirely by descending ranges (counterexample above),
by pattern-stepped ranges `{a..b..s}` — the spread
`exceedsLimit(...args, options.step, rangeLimit)` displaces the limit
parameter to `options.step`, normally `undefined`, and discards
`rangeLimit`, so with default options they expand without error no
matter the bound (fourth conjunct) — and by cross-products of several
braces.  The default-step path (`options.step` absent) behaves exactly
as step 1 (fifth conjunct). -/
theorem braces_range_limit (min max step l : Int)
    (hmm : min ≤ max) (hstep : 0 < step) (hl : 0 ≤ l) :
    resolveRangeLimit none = RangeLimitOpt.num 1000 ∧
    (expandRangeNode min max none (some step) (RangeLimitOpt.num l) =
        Except.error () ↔
      l < ((fillNumbers min max step).length : Int)) ∧
    (¬ l < ((fillNumbers min max step).length : Int) →
      expandRangeNode min max none (some step) (RangeLimitOpt.num l) =
        Except.ok (fillNumbers min max step)) ∧
    (∀ (p : Int) (rl : RangeLimitOpt),
      expandRangeNode min max (some p) none rl =
        Except.ok (fillNumbers min max p)) ∧
    expandRangeNode min max none none (RangeLimitOpt.num l) =
      expandRangeNode min max none (some 1) (RangeLimitOpt.num l) := by
  have hs0 : ¬ step = 0 := by omega
  have hlen := fillNumbers_asc_length min max step hmm hstep
  have hkey : exceedsLimit min max step (LimitArg.num l) = true ↔
      l < ((fillNumbers min max step).length : Int) := by
    rw [exceedsLimit_iff min max step l hstep, hlen]
    have hcast : ((l.toNat * step.toNat : Nat) : Int) = l * step := by
      push_cast [Int.toNat_of_nonneg hl, Int.toNat_of_nonneg hstep.le]
      ring
    have hmb : (0 : Int) ≤ max - min := by omega
    constructor
    · intro h
      have h1 : l.toNat * step.toNat ≤ (max - min).toNat := by omega
      have h2 : l.toNat ≤ (max - min).toNat / step.toNat :=
        (Nat.le_div_iff_mul_le (by omega)).mpr h1
      push_cast
      omega
    · intro h
      have h2 : l.toNat ≤ (max - min).toNat / step.toNat := by
        push_cast at h
        omega
      have h1 : l.toNat * step.toNat ≤ (max - min).toNat :=
        (Nat.le_div_iff_mul_le (by omega)).mp h2
      omega
  refine ⟨rfl, ?_, ?_, ?_, rfl⟩
  · rw [← hkey]
    constructor
    · intro h
      by_cases hx : exceedsLimit min max step (LimitArg.num l) = true
      · exact hx
      · simp [expandRangeNode, hs0, hx] at h
    · intro h; simp [expandRangeNode, hs0, h]
  · intro h
    rw [← hkey] at h
    simp only [Bool.not_eq_true] at h
    simp [expandRangeNode, hs0, h]
  · intro p rl
    simp [expandRangeNode, exceedsLimit]

/-- Claim C9 amended witness: `{1..2000}` with the default bound 1000
fails (2000 > 1000), `{1..5}` expands without error, and the
pattern-stepped `{1..4001..2}` (2001 elements, default options) escapes
the displaced limit check and expands without error. -/
theorem braces_range_limit_witness :
    expandRangeNode 1 2000 none (some 1) (RangeLimitOpt.num 1000) =
      Except.error () ∧
    expandRangeNode 1 5 none (some 1) (RangeLimitOpt.num 1000) =
      Except.ok (fillNumbers 1 5 1) ∧
    expandRangeNode 1 4001 (some 2) none (RangeLimitOpt.num 1000) =
      Except.ok (fillNumbers 1 4001 2) :=
  ⟨((braces_range_limit 1 2000 1 1000 (by norm_num) (by norm_num)
      (by norm_num)).2.1).mpr
      (by rw [fillNumbers_asc_length 1 2000 1 (by norm_num) (by norm_num)]; decide),
    (braces_range_limit 1 5 1 1000 (by norm_num) (by norm_num)
      (by norm_num)).2.2.1
      (by rw [fillNumbers_asc_length 1 5 1 (by norm_num) (by norm_num)]; decide),
    (braces_range_limit 1 4001 1 1000 (by norm_num) (by norm_num)
      (by norm_num)).2.2.2.1 2 (RangeLimitOpt.num 1000)⟩

/-- Claim C3 witness: the characterization applied to a permission error
under `ignorePermissionErrors`. -/
theorem handleError_emits_iff_witness :
    (handleErrorEmits true { code := some "EPERM" } = true ↔
      ((some "EPERM" : Option String) ≠ some "ENOENT" ∧
        (some "EPERM" : Option String) ≠ some "ENOTDIR" ∧
        (true = true → (some "EPERM" : Option String) ≠ some "EPERM" ∧
          (some "EPERM" : Option String) ≠ some "EACCES"))) ∧
    handleErrorEmits true { code := some "ENOENT" } = false ∧
    handleErrorEmits true { code := some "ENOTDIR" } = false :=
  handleError_emits_iff true { code := some "EPERM" }

/-- Claim C10 witness: the mirroring facts applied to a concrete `add`
event and to a concrete `error` event. -/
theorem emitWithAll_mirrors_witness :
    (({ chan := Chan.named Ev.add, path := "T/a", stats := none } : Output)
        ∈ emitWithAll Ev.add "T/a" none) ∧
    ((({ chan := Chan.all Ev.error, path := "boom", stats := none } : Output)
        ∈ emitWithAll Ev.error "boom" none) ↔ Ev.error ≠ Ev.error) :=
  ⟨(emitWithAll_mirrors_except_error Ev.add "T/a" none).1,
    (emitWithAll_mirrors_except_error Ev.error "boom" none).2.1⟩

end KisaanWatch
